import Mathlib

/-!
# Verification of the group_dump coordination core

Shallow embedding of the group-formation / funding / card-security logic of
the repository, together with theorems settling the frozen claims about it.

Conventions used throughout:
* timestamps are `Nat` milliseconds (JavaScript `Date.now()`),
* calendar dates are `Int` day numbers (one unit = one day),
* currency values are `ℚ` (JavaScript numbers used as exact decimals),
* JavaScript truthiness of a numeric value `v` is `v ≠ 0` and of a nullable
  value is `Option.isSome`.
-/

namespace GroupDump

/-! ## Card Access Security Gate (`src/components/CardSecurityProvider.tsx`)

The provider keeps three pieces of per-session state:
`isCardAccessVerified`, `lastAccessTime` (nullable timestamp) and
`accessAttempts`.  `verifyCardAccess` consults the backend; we model the
backend's answer as an abstract `BackendOutcome` (the HTTP status the
`axios` call produced, or `granted` when `response.data.access_granted`). -/

/-- Per-(group, creator) security-session state held by `CardSecurityProvider`. -/
structure SecurityState where
  isCardAccessVerified : Bool
  lastAccessTime : Option Nat
  accessAttempts : Nat
deriving Repr, DecidableEq

/-- `const maxAccessAttempts = 3`. -/
def maxAccessAttempts : Nat := 3

/-- `const sessionTimeoutMs = 15 * 60 * 1000`. -/
def sessionTimeoutMs : Nat := 15 * 60 * 1000

/-- `const attemptResetTimeMs = 30 * 60 * 1000`. -/
def attemptResetTimeMs : Nat := 30 * 60 * 1000

/-- Initial state of the provider: `useState(false)`, `useState(null)`, `useState(0)`. -/
def initialSecurityState : SecurityState :=
  { isCardAccessVerified := false, lastAccessTime := none, accessAttempts := 0 }

/-- Outcome of the backend call `POST /groups/:id/verify-card-access`
as observed by the client: either `access_granted` is true, or it is false
(`denied`), or the request failed with an HTTP status / network error. -/
inductive BackendOutcome
  | granted
  | denied
  | err403
  | err404
  | err400
  | errOther
deriving Repr, DecidableEq

/-- The distinct `Error` messages `verifyCardAccess` can throw. -/
inductive VerifyError
  | AccessBlocked
  | InvalidBrowser
  | TooFrequent
  | NotAuthorized
  | InstrumentNotFound
  | InstrumentInactive
  | AccessDenied
  | OtherFailure
deriving Repr, DecidableEq

/-- `isAccessBlocked = () => accessAttempts >= maxAccessAttempts`. -/
def isAccessBlocked (s : SecurityState) : Bool :=
  decide (maxAccessAttempts ≤ s.accessAttempts)

/-- The `catch` block of `verifyCardAccess`: increments `accessAttempts`,
clears `isCardAccessVerified`, and rethrows a translated error. -/
def securityFail (s : SecurityState) (e : VerifyError) :
    Except VerifyError Bool × SecurityState :=
  (Except.error e,
    { s with accessAttempts := s.accessAttempts + 1, isCardAccessVerified := false })

/-- The inter-attempt rate check
`lastAccessTime && timestamp - lastAccessTime < 5000`
(`lastAccessTime` is truthy when non-null and non-zero). -/
def rateLimited (lastAccessTime : Option Nat) (now : Nat) : Bool :=
  match lastAccessTime with
  | none => false
  | some t => decide (t ≠ 0) && decide (now - t < 5000)

/-- `verifyCardAccess(groupId)` of `CardSecurityProvider.tsx`.
Arguments beyond the session state: the current timestamp `now`
(`Date.now()`), the length of `navigator.userAgent`, and the backend's
answer.  Returns the promise outcome paired with the updated session state.
The `AccessBlocked` rejection is raised before the `try` block, so it does
not run the `catch` block; every failure inside the `try` does. -/
def verifyCardAccess (s : SecurityState) (now : Nat) (userAgentLength : Nat)
    (backend : BackendOutcome) : Except VerifyError Bool × SecurityState :=
  if isAccessBlocked s then
    (Except.error VerifyError.AccessBlocked, s)
  else if userAgentLength < 10 then
    securityFail s VerifyError.InvalidBrowser
  else if rateLimited s.lastAccessTime now then
    securityFail s VerifyError.TooFrequent
  else
    match backend with
    | BackendOutcome.granted =>
        (Except.ok true,
          { isCardAccessVerified := true, lastAccessTime := some now,
            accessAttempts := 0 })
    | BackendOutcome.denied => securityFail s VerifyError.AccessDenied
    | BackendOutcome.err403 => securityFail s VerifyError.NotAuthorized
    | BackendOutcome.err404 => securityFail s VerifyError.InstrumentNotFound
    | BackendOutcome.err400 => securityFail s VerifyError.InstrumentInactive
    | BackendOutcome.errOther => securityFail s VerifyError.OtherFailure

/-- `resetSecurity()`: clears the verified flag and the last-access time;
the comment in the source says attempts are deliberately not reset here. -/
def resetSecurity (s : SecurityState) : SecurityState :=
  { s with isCardAccessVerified := false, lastAccessTime := none }

/-- The session-TTL check run every minute:
`if (lastAccessTime && Date.now() - lastAccessTime > sessionTimeoutMs) resetSecurity()`. -/
def checkSessionTimeout (s : SecurityState) (now : Nat) : SecurityState :=
  match s.lastAccessTime with
  | none => s
  | some t =>
      if t ≠ 0 ∧ sessionTimeoutMs < now - t then resetSecurity s else s

/-- The 30-minute lockout-cooldown timer firing
(`setTimeout(() => setAccessAttempts(0), attemptResetTimeMs)`, armed once
`accessAttempts >= maxAccessAttempts`). -/
def attemptsCooldownExpire (s : SecurityState) : SecurityState :=
  { s with accessAttempts := 0 }

/-- Run a sequence of verification attempts (each given by timestamp,
user-agent length and backend outcome), collecting the outcome of each. -/
def runVerifyAttempts (s : SecurityState) :
    List (Nat × Nat × BackendOutcome) → SecurityState × List (Except VerifyError Bool)
  | [] => (s, [])
  | (now, ua, b) :: rest =>
      let step := verifyCardAccess s now ua b
      let tail := runVerifyAttempts step.2 rest
      (tail.1, step.1 :: tail.2)

/-- While blocked, a verification attempt is rejected unchanged. -/
theorem verifyCardAccess_blocked (s : SecurityState) (now ua : Nat)
    (b : BackendOutcome) (h : isAccessBlocked s = true) :
    verifyCardAccess s now ua b = (Except.error VerifyError.AccessBlocked, s) := by
  simp [verifyCardAccess, h]

/-- C1.  Once `accessAttempts` has reached `maxAccessAttempts`, every later
verification attempt — whatever its timestamp, user agent or backend answer —
fails with the `AccessBlocked` error, grants nothing and leaves the session
state untouched, until the 30-minute cooldown timer fires; when it fires the
attempt counter is 0 and a well-spaced attempt that the backend grants
succeeds again. -/
theorem security_lockout_until_cooldown (s : SecurityState)
    (h : maxAccessAttempts ≤ s.accessAttempts) :
    (∀ evs, (runVerifyAttempts s evs).1 = s ∧
      ∀ r ∈ (runVerifyAttempts s evs).2, r = Except.error VerifyError.AccessBlocked) ∧
    (attemptsCooldownExpire s).accessAttempts = 0 ∧
    (∀ now ua, 10 ≤ ua →
      rateLimited (attemptsCooldownExpire s).lastAccessTime now = false →
      verifyCardAccess (attemptsCooldownExpire s) now ua BackendOutcome.granted =
        (Except.ok true,
          { isCardAccessVerified := true, lastAccessTime := some now,
            accessAttempts := 0 })) := by
  have hb : isAccessBlocked s = true := by
    simpa [isAccessBlocked] using h
  refine ⟨?_, rfl, ?_⟩
  · intro evs
    induction evs with
    | nil => exact ⟨rfl, by simp [runVerifyAttempts]⟩
    | cons ev rest ih =>
        obtain ⟨now, ua, b⟩ := ev
        simp only [runVerifyAttempts, verifyCardAccess_blocked s now ua b hb]
        exact ⟨ih.1, by
          intro r hr
          rcases List.mem_cons.mp hr with hr | hr
          · exact hr
          · exact ih.2 r hr⟩
  · intro now ua hua hrate
    have hua' : ¬ ua < 10 := by omega
    simp only [attemptsCooldownExpire] at hrate ⊢
    simp [verifyCardAccess, isAccessBlocked, maxAccessAttempts, hua', hrate]

/-- C1 witness: a concrete blocked session rejects a correct-credential
attempt, and after the cooldown fires a granted attempt succeeds. -/
theorem security_lockout_until_cooldown_witness :
    (runVerifyAttempts
        { isCardAccessVerified := false, lastAccessTime := none, accessAttempts := 3 }
        [(1000000, 20, BackendOutcome.granted)]).2 =
      [Except.error VerifyError.AccessBlocked] ∧
    verifyCardAccess
        (attemptsCooldownExpire
          { isCardAccessVerified := false, lastAccessTime := none, accessAttempts := 3 })
        2000000 20 BackendOutcome.granted =
      (Except.ok true,
        { isCardAccessVerified := true, lastAccessTime := some 2000000,
          accessAttempts := 0 }) := by
  have h := security_lockout_until_cooldown
    { isCardAccessVerified := false, lastAccessTime := none, accessAttempts := 3 }
    (by decide)
  exact ⟨rfl, h.2.2 2000000 20 (by decide) rfl⟩

/-- C2 counterexample: from a fresh session, a verification attempt that the
backend rejects with HTTP 403 (`NotAuthorized`: the caller is not the group's
creator) increments the failed-attempt counter from 0 to 1 — the claim says a
`NotAuthorized` failure leaves the counter unchanged. -/
theorem notAuthorized_increments_attempts :
    (verifyCardAccess initialSecurityState 1000000 20 BackendOutcome.err403).1 =
      Except.error VerifyError.NotAuthorized ∧
    (verifyCardAccess initialSecurityState 1000000 20 BackendOutcome.err403).2.accessAttempts
      = 1 :=
  ⟨rfl, rfl⟩

/-- C2 amended.  Every failing verification attempt increments the
failed-attempt counter and clears the verified flag — including a
`NotAuthorized` (HTTP 403) failure — except the `AccessBlocked` rejection
raised while the session is locked out, which leaves the whole session state
unchanged. -/
theorem failing_attempt_increments_counter (s : SecurityState) (now ua : Nat)
    (b : BackendOutcome) (e : VerifyError)
    (h : (verifyCardAccess s now ua b).1 = Except.error e) :
    (e = VerifyError.AccessBlocked → (verifyCardAccess s now ua b).2 = s) ∧
    (e ≠ VerifyError.AccessBlocked →
      (verifyCardAccess s now ua b).2.accessAttempts = s.accessAttempts + 1 ∧
      (verifyCardAccess s now ua b).2.isCardAccessVerified = false) := by
  by_cases hb : isAccessBlocked s = true
  · have := verifyCardAccess_blocked s now ua b hb
    rw [this] at h ⊢
    simp only [Except.error.injEq] at h
    subst h
    exact ⟨fun _ => rfl, fun hne => absurd rfl hne⟩
  · have hb' : isAccessBlocked s = false := by
      cases hbv : isAccessBlocked s
      · rfl
      · exact absurd hbv hb
    unfold verifyCardAccess at h ⊢
    rw [hb'] at h ⊢
    simp only [Bool.false_eq_true, if_false] at h ⊢
    constructor
    · intro he
      subst he
      by_cases hua : ua < 10
      · simp [securityFail, hua] at h
      · simp only [if_neg hua] at h
        by_cases hrate : rateLimited s.lastAccessTime now = true
        · simp [securityFail, hrate] at h
        · have hrate' : rateLimited s.lastAccessTime now = false := by
            cases hrv : rateLimited s.lastAccessTime now
            · rfl
            · exact absurd hrv hrate
          simp only [hrate', Bool.false_eq_true, if_false] at h
          cases b <;> simp [securityFail] at h
    · intro _
      by_cases hua : ua < 10
      · simp [securityFail, hua]
      · simp only [if_neg hua] at h ⊢
        by_cases hrate : rateLimited s.lastAccessTime now = true
        · simp [securityFail, hrate]
        · have hrate' : rateLimited s.lastAccessTime now = false := by
            cases hrv : rateLimited s.lastAccessTime now
            · rfl
            · exact absurd hrv hrate
          simp only [hrate', Bool.false_eq_true, if_false] at h ⊢
          cases b <;> simp [securityFail] at h ⊢

/-- C2 amended, witness: a concrete in-`try` failure (HTTP 404,
`InstrumentNotFound`) increments the counter of a fresh session to 1. -/
theorem failing_attempt_increments_counter_witness :
    (verifyCardAccess initialSecurityState 1000000 20 BackendOutcome.err404).2.accessAttempts
      = initialSecurityState.accessAttempts + 1 := by
  have h := failing_attempt_increments_counter initialSecurityState 1000000 20
    BackendOutcome.err404 VerifyError.InstrumentNotFound rfl
  exact (h.2 (by decide)).1

/-- C6 counterexample: the 5-second spacing is keyed on `lastAccessTime`,
which only a *successful* verification sets.  From a fresh session, a first
attempt fails (backend denies), and a second attempt only 1 second later is
not rejected as too frequent — the backend grants it and it succeeds.  The
claim says any attempt under 5 seconds after the previous attempt fails with
`TooFrequent`. -/
theorem attempt_soon_after_failure_not_tooFrequent :
    (verifyCardAccess initialSecurityState 1000 20 BackendOutcome.denied).1 =
      Except.error VerifyError.AccessDenied ∧
    (verifyCardAccess
        (verifyCardAccess initialSecurityState 1000 20 BackendOutcome.denied).2
        2000 20 BackendOutcome.granted).1 = Except.ok true :=
  ⟨rfl, rfl⟩

/-- C6 amended.  An attempt made less than 5 seconds after the previous
*successful* verification (i.e. while `lastAccessTime` holds a non-zero
timestamp), with the session not locked out and a plausible user agent,
fails with the `TooFrequent` error and does not leave the session verified,
whatever the backend would have answered. -/
theorem tooFrequent_after_recent_success (s : SecurityState) (t now ua : Nat)
    (b : BackendOutcome) (hlast : s.lastAccessTime = some t) (ht : t ≠ 0)
    (hclose : now - t < 5000) (hnb : s.accessAttempts < maxAccessAttempts)
    (hua : 10 ≤ ua) :
    (verifyCardAccess s now ua b).1 = Except.error VerifyError.TooFrequent ∧
    (verifyCardAccess s now ua b).2.isCardAccessVerified = false ∧
    (verifyCardAccess s now ua b).2.accessAttempts = s.accessAttempts + 1 := by
  have hb : isAccessBlocked s = false := by
    simp [isAccessBlocked]
    omega
  have hua' : ¬ ua < 10 := by omega
  have hrate : rateLimited s.lastAccessTime now = true := by
    simp [rateLimited, hlast, ht, hclose]
  simp [verifyCardAccess, hb, hua', hrate, securityFail]

/-- C6 amended, witness: one second after a successful verification at time
1000, a new attempt is rejected as too frequent. -/
theorem tooFrequent_after_recent_success_witness :
    (verifyCardAccess
        { isCardAccessVerified := true, lastAccessTime := some 1000, accessAttempts := 0 }
        2000 20 BackendOutcome.granted).1 = Except.error VerifyError.TooFrequent :=
  (tooFrequent_after_recent_success
    { isCardAccessVerified := true, lastAccessTime := some 1000, accessAttempts := 0 }
    1000 2000 20 BackendOutcome.granted rfl (by decide) (by decide) (by decide)
    (by decide)).1

/-- C8.  `resetSecurity` — and the session-TTL expiry check that calls it —
clears the verified flag and `lastAccessTime` but never touches the
failed-attempt counter, so expiry of a verified session does not refresh the
caller's attempt budget. -/
theorem resetSecurity_preserves_attempts (s : SecurityState) :
    (resetSecurity s).isCardAccessVerified = false ∧
    (resetSecurity s).lastAccessTime = none ∧
    (resetSecurity s).accessAttempts = s.accessAttempts ∧
    ∀ now, (checkSessionTimeout s now).accessAttempts = s.accessAttempts ∧
      (checkSessionTimeout s now = resetSecurity s ∨ checkSessionTimeout s now = s) := by
  refine ⟨rfl, rfl, rfl, ?_⟩
  intro now
  unfold checkSessionTimeout
  cases hl : s.lastAccessTime with
  | none => exact ⟨rfl, Or.inr rfl⟩
  | some t =>
      by_cases hc : t ≠ 0 ∧ sessionTimeoutMs < now - t
      · simp [if_pos hc, resetSecurity]
      · simp [if_neg hc]

/-! ## Funding Ledger: service fee (`src/components/ServiceConfirmation.tsx`,
cent-denominated variant in the plan code embedded in `src/components/Login.tsx`) -/

/-- The platform fee rate, the literal `0.10` (`SERVICE_FEE_PERCENTAGE`). -/
def feeRate : ℚ := 10 / 100

/-- `const serviceFee = Math.round(totalAmount * 0.10 * 100) / 100`
(`ServiceConfirmation.tsx`; `totalAmount` in dollars, fee rounded to cents). -/
def serviceFee (totalAmount : ℚ) : ℚ :=
  (round (totalAmount * feeRate * 100) : ℤ) / 100

/-- `const cardAmount = totalAmount - serviceFee`: the disbursable amount
used as the DisbursementInstrument's spending limit. -/
def cardAmount (totalAmount : ℚ) : ℚ :=
  totalAmount - serviceFee totalAmount

/-- `const serviceFee = Math.round(totalAmount * SERVICE_FEE_PERCENTAGE)`
(`Login.tsx` plan code; `totalAmount` in integer cents). -/
def serviceFeeCents (totalAmountCents : ℤ) : ℤ :=
  round ((totalAmountCents : ℚ) * feeRate)

/-- C3.  The service fee is the 10% of the total, rounded (to cents): it
differs from the exact 10% by at most half a cent, fee plus disbursable
amount reconstruct the total, the dollar- and cent-denominated computations
agree, and on the spec's reference input the fee on 430.00 is 43.00 and the
disbursable amount 387.00. -/
theorem serviceFee_disbursable_correct :
    (∀ t : ℚ, serviceFee t + cardAmount t = t) ∧
    (∀ t : ℚ, |serviceFee t - t * feeRate| ≤ 1 / 200) ∧
    (∀ c : ℤ, serviceFee ((c : ℚ) / 100) = (serviceFeeCents c : ℚ) / 100) ∧
    serviceFee 430 = 43 ∧ cardAmount 430 = 387 := by
  have fee430 : serviceFee 430 = 43 := by
    have : (430 : ℚ) * feeRate * 100 = ((4300 : ℤ) : ℚ) := by
      norm_num [feeRate]
    rw [serviceFee, this, round_intCast]
    norm_num
  refine ⟨?_, ?_, ?_, fee430, ?_⟩
  · intro t
    simp [cardAmount]
  · intro t
    have h := abs_sub_round (t * feeRate * 100)
    rw [abs_sub_comm] at h
    have heq : serviceFee t - t * feeRate =
        ((round (t * feeRate * 100) : ℤ) - t * feeRate * 100) / 100 := by
      rw [serviceFee]
      ring
    rw [heq, abs_div]
    have h100 : |(100 : ℚ)| = 100 := by norm_num
    rw [h100]
    calc |(round (t * feeRate * 100) : ℚ) - t * feeRate * 100| / 100
        ≤ (1 / 2) / 100 := by
          exact (div_le_div_iff_of_pos_right (by norm_num)).mpr h
      _ = 1 / 200 := by norm_num
  · intro c
    have harg : ((c : ℚ) / 100) * feeRate * 100 = (c : ℚ) * feeRate := by
      ring
    rw [serviceFee, serviceFeeCents, harg]
  · rw [cardAmount, fee430]
    norm_num

/-! ## Disbursement Controller: remaining balance
(`src/components/VirtualCardDetails.tsx`)

Transactions carry their `amount` in cents (Stripe convention); the group's
`card_spending_limit` is in dollars, so `calculateRemainingBalance` converts
the approved total with `totalSpent / 100`. -/

/-- An `InstrumentTransaction` as consumed by `calculateRemainingBalance`
(the fields it reads: `amount` in cents and the `status` string). -/
structure InstrumentTransaction where
  amount : ℚ
  status : String
deriving Repr, DecidableEq

/-- `transactions.filter(tx => tx.status === 'approved').reduce((sum, tx) => sum + tx.amount, 0)`. -/
def approvedTotalSpent (transactions : List InstrumentTransaction) : ℚ :=
  (transactions.filter fun tx => tx.status == "approved").foldl
    (fun sum tx => sum + tx.amount) 0

/-- `calculateRemainingBalance` of `VirtualCardDetails.tsx`:
`if (!group?.card_spending_limit) return 0` (a missing or zero — falsy —
limit yields 0), otherwise
`Math.max(0, group.card_spending_limit - totalSpent / 100)`. -/
def calculateRemainingBalance (card_spending_limit : Option ℚ)
    (transactions : List InstrumentTransaction) : ℚ :=
  match card_spending_limit with
  | none => 0
  | some limit =>
      if limit = 0 then 0
      else max 0 (limit - approvedTotalSpent transactions / 100)

/-- The spec's formula for the same quantity, written independently for
comparison: spending limit minus the sum of the approved transaction
amounts (expressed in the limit's unit), floored at zero. -/
def specRemainingBalance (limit : ℚ) (transactions : List InstrumentTransaction) : ℚ :=
  max 0 (limit -
    ((transactions.filter fun tx => tx.status == "approved").map
      InstrumentTransaction.amount).sum / 100)

theorem foldl_add_amount (txs : List InstrumentTransaction) (a : ℚ) :
    txs.foldl (fun sum tx => sum + tx.amount) a
      = a + (txs.map InstrumentTransaction.amount).sum := by
  induction txs generalizing a with
  | nil => simp
  | cons tx rest ih =>
      simp only [List.foldl_cons, List.map_cons, List.sum_cons, ih]
      ring

theorem approvedTotalSpent_nonneg (txs : List InstrumentTransaction)
    (hpos : ∀ tx ∈ txs, 0 ≤ tx.amount) : 0 ≤ approvedTotalSpent txs := by
  rw [approvedTotalSpent, foldl_add_amount, zero_add]
  refine List.sum_nonneg ?_
  intro a ha
  obtain ⟨tx, htx, rfl⟩ := List.mem_map.mp ha
  exact hpos tx (List.mem_of_mem_filter htx)

/-- C4.  For a present spending limit and any finite list of nonnegative
transactions, `calculateRemainingBalance` computes exactly the spec formula
(limit minus the sum of approved amounts, floored at zero); it is never
negative, and appending a transaction whose status is not approved
(e.g. declined) never changes it. -/
theorem remaining_balance_correct (limit : ℚ) (txs : List InstrumentTransaction)
    (hpos : ∀ tx ∈ txs, 0 ≤ tx.amount) :
    calculateRemainingBalance (some limit) txs = specRemainingBalance limit txs ∧
    (∀ lim txs2, 0 ≤ calculateRemainingBalance lim txs2) ∧
    (∀ lim tx, tx.status ≠ "approved" →
      calculateRemainingBalance lim (txs ++ [tx]) = calculateRemainingBalance lim txs) := by
  have hsum : ∀ l : List InstrumentTransaction,
      approvedTotalSpent l =
        ((l.filter fun tx => tx.status == "approved").map
          InstrumentTransaction.amount).sum := by
    intro l
    rw [approvedTotalSpent, foldl_add_amount, zero_add]
  refine ⟨?_, ?_, ?_⟩
  · by_cases h0 : limit = 0
    · subst h0
      have hnn := approvedTotalSpent_nonneg txs hpos
      rw [hsum] at hnn
      simp only [calculateRemainingBalance, if_pos rfl, specRemainingBalance]
      have : (0 : ℚ) -
          ((txs.filter fun tx => tx.status == "approved").map
            InstrumentTransaction.amount).sum / 100 ≤ 0 := by
        have : 0 ≤ ((txs.filter fun tx => tx.status == "approved").map
            InstrumentTransaction.amount).sum / 100 := by positivity
        linarith
      rw [max_eq_left this]
      simp
    · simp only [calculateRemainingBalance, if_neg h0, specRemainingBalance, hsum]
  · intro lim txs2
    cases lim with
    | none => simp [calculateRemainingBalance]
    | some l =>
        by_cases h0 : l = 0
        · simp [calculateRemainingBalance, h0]
        · simp only [calculateRemainingBalance, if_neg h0]
          exact le_max_left 0 _
  · intro lim tx hst
    have hfilter : ((txs ++ [tx]).filter fun t => t.status == "approved")
        = txs.filter fun t => t.status == "approved" := by
      have hb : (tx.status == "approved") = false := by
        simpa using hst
      simp [List.filter_append, hb]
    have hspent : approvedTotalSpent (txs ++ [tx]) = approvedTotalSpent txs := by
      rw [hsum, hsum, hfilter]
    cases lim with
    | none => simp [calculateRemainingBalance]
    | some l => simp [calculateRemainingBalance, hspent]

/-- C4 witness: a 387-dollar limit with a 100-dollar (10000-cent) approved
transaction and a declined one agrees with the spec formula. -/
theorem remaining_balance_correct_witness :
    calculateRemainingBalance (some 387)
        [{ amount := 10000, status := "approved" },
         { amount := 5000, status := "declined" }]
      = specRemainingBalance 387
        [{ amount := 10000, status := "approved" },
         { amount := 5000, status := "declined" }] :=
  (remaining_balance_correct 387
    [{ amount := 10000, status := "approved" },
     { amount := 5000, status := "declined" }]
    (by intro tx htx; fin_cases htx <;> norm_num)).1

/-! ## Time slots and the join flow
(`src/components/Join.tsx`, `src/components/Groups.tsx`)

A `TimeSlot` is a 7-day rental window; dates are day numbers. -/

/-- The `TimeSlot` record (`id`, `start_date`, `end_date`). -/
structure TimeSlot where
  id : ℤ
  start_date : ℤ
  end_date : ℤ
deriving Repr, DecidableEq

/-- What `handleJoin` of `Join.tsx` does before (or instead of) posting:
either it stops with the "must select at least one available time slot"
error, or it posts the join request with the selected slot ids. -/
inductive JoinAction
  | selectionError
  | postJoin (time_slot_ids : List ℤ)
deriving Repr, DecidableEq

/-- The client-side gate of `handleJoin` (`Join.tsx`):
`hasTimeSlots = joinInfo?.group.time_slots && time_slots.length > 0`;
`if (hasTimeSlots && selectedTimeSlots.length === 0)` it sets the error and
returns, otherwise it posts `time_slot_ids: selectedTimeSlots`. -/
def handleJoin (time_slots : Option (List TimeSlot)) (selectedTimeSlots : List ℤ) :
    JoinAction :=
  let hasTimeSlots : Bool :=
    match time_slots with
    | some ts => decide (0 < ts.length)
    | none => false
  if hasTimeSlots && (selectedTimeSlots.length == 0) then JoinAction.selectionError
  else JoinAction.postJoin selectedTimeSlots

/-- What `handleJoinGroup` of `Groups.tsx` does: groups with time slots are
redirected to the invitation link (no join request), groups without are
joined with an empty `time_slot_ids` list. -/
inductive GroupsJoinAction
  | useInviteLinkMessage
  | postJoin (time_slot_ids : List ℤ)
deriving Repr, DecidableEq

/-- `handleJoinGroup(groupId)` (`Groups.tsx`):
`if (group && group.time_slots && group.time_slots.length > 0)` show the
invitation-link message and return, else `POST` with `time_slot_ids: []`. -/
def handleJoinGroup (time_slots : Option (List TimeSlot)) : GroupsJoinAction :=
  let hasSlots : Bool :=
    match time_slots with
    | some ts => decide (0 < ts.length)
    | none => false
  if hasSlots then GroupsJoinAction.useInviteLinkMessage
  else GroupsJoinAction.postJoin []

/-- C5.  The join flow raises the selection-required error exactly when the
group has at least one configured time slot and the selection is empty; a
group with no (or absent) time slots accepts a join with an empty selection,
both in `Join.tsx` and in `Groups.tsx`. -/
theorem timeSlotSelectionRequired_iff (ts : Option (List TimeSlot)) (sel : List ℤ) :
    (handleJoin ts sel = JoinAction.selectionError ↔ ts.getD [] ≠ [] ∧ sel = []) ∧
    (ts.getD [] = [] → handleJoin ts [] = JoinAction.postJoin []) ∧
    (handleJoinGroup ts = GroupsJoinAction.postJoin [] ↔ ts.getD [] = []) := by
  refine ⟨?_, ?_, ?_⟩
  · cases ts with
    | none => simp [handleJoin]
    | some l =>
        cases l with
        | nil => simp [handleJoin]
        | cons a l' =>
            cases sel with
            | nil => simp [handleJoin]
            | cons i sel' => simp [handleJoin]
  · intro hempty
    cases ts with
    | none => simp [handleJoin]
    | some l =>
        simp only [Option.getD_some] at hempty
        subst hempty
        simp [handleJoin]
  · cases ts with
    | none => simp [handleJoinGroup]
    | some l =>
        cases l with
        | nil => simp [handleJoinGroup]
        | cons a l' => simp [handleJoinGroup]

/-- C5 witness: a slot-less group accepts an empty selection. -/
theorem timeSlotSelectionRequired_iff_witness :
    handleJoin none [] = JoinAction.postJoin [] :=
  (timeSlotSelectionRequired_iff none []).2.1 rfl

/-! ### Creating and editing candidate time slots (`Groups.tsx`) -/

/-- The fields of a `TimeSlot` (`keyof TimeSlot`) that `updateTimeSlot`
can be asked to change. -/
inductive TimeSlotField
  | id
  | start_date
  | end_date
deriving Repr, DecidableEq

/-- `addTimeSlot` (`Groups.tsx`): only when fewer than 5 slots exist,
append a slot starting tomorrow (`today + 1`) and ending 6 days after its
start. -/
def addTimeSlot (today newId : ℤ) (timeSlots : List TimeSlot) : List TimeSlot :=
  if timeSlots.length < 5 then
    timeSlots ++ [{ id := newId, start_date := today + 1, end_date := today + 1 + 6 }]
  else timeSlots

/-- One slot's update inside `updateTimeSlot`: `{ ...slot, [field]: value }`,
and when the field is the start date the end date is recomputed as
`start + 6` days. -/
def applyTimeSlotField (slot : TimeSlot) (field : TimeSlotField) (value : ℤ) :
    TimeSlot :=
  match field with
  | TimeSlotField.id => { slot with id := value }
  | TimeSlotField.start_date => { slot with start_date := value, end_date := value + 6 }
  | TimeSlotField.end_date => { slot with end_date := value }

/-- The indexed map of `updateTimeSlot`
(`timeSlots.map((slot, i) => i === index ? … : slot)`), carrying the
running position `i`. -/
def updateTimeSlotFrom (i index : Nat) (field : TimeSlotField) (value : ℤ) :
    List TimeSlot → List TimeSlot
  | [] => []
  | slot :: rest =>
      (if i = index then applyTimeSlotField slot field value else slot) ::
        updateTimeSlotFrom (i + 1) index field value rest

/-- `updateTimeSlot(index, field, value)` (`Groups.tsx`). -/
def updateTimeSlot (timeSlots : List TimeSlot) (index : Nat) (field : TimeSlotField)
    (value : ℤ) : List TimeSlot :=
  updateTimeSlotFrom 0 index field value timeSlots

/-- The 7-day-window invariant: every held slot ends 6 days after it starts. -/
def slotWindowInvariant (timeSlots : List TimeSlot) : Prop :=
  ∀ slot ∈ timeSlots, slot.end_date = slot.start_date + 6

theorem updateTimeSlotFrom_start_date_invariant (l : List TimeSlot)
    (hinv : slotWindowInvariant l) (i index : Nat) (v : ℤ) :
    slotWindowInvariant (updateTimeSlotFrom i index TimeSlotField.start_date v l) := by
  induction l generalizing i with
  | nil => intro slot hs; cases hs
  | cons a rest ih =>
      intro slot hs
      simp only [updateTimeSlotFrom, List.mem_cons] at hs
      rcases hs with hs | hs
      · by_cases hidx : i = index
        · subst hs
          simp [hidx, applyTimeSlotField]
        · subst hs
          simp only [if_neg hidx]
          exact hinv a (List.mem_cons_self a rest)
      · exact ih (fun s hm => hinv s (List.mem_cons_of_mem a hm)) (i + 1) slot hs

theorem updateTimeSlotFrom_length (l : List TimeSlot) (i index : Nat)
    (field : TimeSlotField) (v : ℤ) :
    (updateTimeSlotFrom i index field v l).length = l.length := by
  induction l generalizing i with
  | nil => rfl
  | cons a rest ih => simp [updateTimeSlotFrom, ih]

/-- C7.  The 7-day-window invariant (`end_date = start_date + 6`) holds for
every slot `addTimeSlot` appends and is preserved when `updateTimeSlot`
changes a slot's start date (the end date is recomputed); the slot list
never grows past 5 entries and adding to a full list of 5 is a no-op; an
update never changes the number of slots. -/
theorem timeSlot_window_invariant (today newId : ℤ) (slots : List TimeSlot)
    (hinv : slotWindowInvariant slots) :
    slotWindowInvariant (addTimeSlot today newId slots) ∧
    (∀ index v,
      slotWindowInvariant (updateTimeSlot slots index TimeSlotField.start_date v)) ∧
    (slots.length ≤ 5 → (addTimeSlot today newId slots).length ≤ 5) ∧
    (slots.length = 5 → addTimeSlot today newId slots = slots) ∧
    (∀ index field v, (updateTimeSlot slots index field v).length = slots.length) := by
  refine ⟨?_, ?_, ?_, ?_, ?_⟩
  · intro slot hs
    unfold addTimeSlot at hs
    by_cases hlen : slots.length < 5
    · rw [if_pos hlen] at hs
      rcases List.mem_append.mp hs with hs | hs
      · exact hinv slot hs
      · simp only [List.mem_singleton] at hs
        subst hs
        rfl
    · rw [if_neg hlen] at hs
      exact hinv slot hs
  · intro index v
    exact updateTimeSlotFrom_start_date_invariant slots hinv 0 index v
  · intro hle
    unfold addTimeSlot
    by_cases hlen : slots.length < 5
    · rw [if_pos hlen]
      simp only [List.length_append, List.length_singleton]
      omega
    · rw [if_neg hlen]
      exact hle
  · intro h5
    unfold addTimeSlot
    rw [if_neg (by omega)]
  · intro index field v
    exact updateTimeSlotFrom_length slots 0 index field v

/-- C7 witness: adding to a one-slot list keeps the invariant, and adding to
a full list of five is a no-op. -/
theorem timeSlot_window_invariant_witness :
    slotWindowInvariant
      (addTimeSlot 100 2 [{ id := 1, start_date := 10, end_date := 16 }]) ∧
    addTimeSlot 100 9
        [{ id := 1, start_date := 1, end_date := 7 },
         { id := 2, start_date := 2, end_date := 8 },
         { id := 3, start_date := 3, end_date := 9 },
         { id := 4, start_date := 4, end_date := 10 },
         { id := 5, start_date := 5, end_date := 11 }]
      = [{ id := 1, start_date := 1, end_date := 7 },
         { id := 2, start_date := 2, end_date := 8 },
         { id := 3, start_date := 3, end_date := 9 },
         { id := 4, start_date := 4, end_date := 10 },
         { id := 5, start_date := 5, end_date := 11 }] := by
  constructor
  · exact (timeSlot_window_invariant 100 2
      [{ id := 1, start_date := 10, end_date := 16 }]
      (by unfold slotWindowInvariant; decide)).1
  · exact (timeSlot_window_invariant 100 9
      [{ id := 1, start_date := 1, end_date := 7 },
       { id := 2, start_date := 2, end_date := 8 },
       { id := 3, start_date := 3, end_date := 9 },
       { id := 4, start_date := 4, end_date := 10 },
       { id := 5, start_date := 5, end_date := 11 }]
      (by unfold slotWindowInvariant; decide)).2.2.2.1 rfl

/-! ## Funding Ledger: bulk mark-as-paid
(`PaymentRequestDashboard`, `src/unnamed/part_002`) -/

/-- A `PaymentRequest` as read by `bulkMarkAsPaid` (the fields it uses:
`id` and `status`; `amount` kept for context). -/
structure PaymentRequest where
  id : ℤ
  amount : ℚ
  status : String
deriving Repr, DecidableEq

/-- `paymentRequests.filter(pr => pr.status === 'pending').map(pr => pr.id)`. -/
def pendingRequestIds (paymentRequests : List PaymentRequest) : List ℤ :=
  (paymentRequests.filter fun pr => pr.status == "pending").map PaymentRequest.id

/-- `bulkMarkAsPaid` (`part_002`): computes the pending ids; if there are
none it returns without posting (`none`), otherwise it posts exactly that
id list to `/payment-requests/bulk-mark-paid` (`some ids`). -/
def bulkMarkAsPaid (paymentRequests : List PaymentRequest) : Option (List ℤ) :=
  let ids := pendingRequestIds paymentRequests
  if ids.length = 0 then none else some ids

/-- C9.  `bulkMarkAsPaid` performs no submission exactly when no request is
pending, and any submission carries exactly the ids of the pending requests —
every submitted id belongs to a request whose status is `pending`, never to
one already `paid`. -/
theorem bulkMarkAsPaid_submits_exactly_pending (prs : List PaymentRequest) :
    (bulkMarkAsPaid prs = none ↔ ∀ pr ∈ prs, pr.status ≠ "pending") ∧
    ∀ ids, bulkMarkAsPaid prs = some ids →
      ids = pendingRequestIds prs ∧
      ∀ i ∈ ids, ∃ pr ∈ prs, pr.id = i ∧ pr.status = "pending" := by
  constructor
  · unfold bulkMarkAsPaid
    by_cases hlen : (pendingRequestIds prs).length = 0
    · rw [if_pos hlen]
      simp only [true_iff]
      intro pr hpr hst
      have hmem : pr.id ∈ pendingRequestIds prs := by
        unfold pendingRequestIds
        exact List.mem_map_of_mem _ (List.mem_filter.mpr ⟨hpr, by simp [hst]⟩)
      rw [List.length_eq_zero.mp hlen] at hmem
      cases hmem
    · rw [if_neg hlen]
      have hne : pendingRequestIds prs ≠ [] := by
        intro hnil
        exact hlen (by rw [hnil]; rfl)
      obtain ⟨i, hi⟩ := List.exists_mem_of_ne_nil _ hne
      unfold pendingRequestIds at hi
      obtain ⟨pr, hpr, rfl⟩ := List.mem_map.mp hi
      obtain ⟨hprs, hpend⟩ := List.mem_filter.mp hpr
      refine iff_of_false (by simp) ?_
      intro hall
      exact hall pr hprs (eq_of_beq hpend)
  · intro ids hids
    unfold bulkMarkAsPaid at hids
    by_cases hlen : (pendingRequestIds prs).length = 0
    · rw [if_pos hlen] at hids
      cases hids
    · rw [if_neg hlen] at hids
      obtain rfl : pendingRequestIds prs = ids := Option.some.inj hids
      refine ⟨rfl, ?_⟩
      intro i hi
      unfold pendingRequestIds at hi
      obtain ⟨pr, hpr, rfl⟩ := List.mem_map.mp hi
      obtain ⟨hprs, hpend⟩ := List.mem_filter.mp hpr
      exact ⟨pr, hprs, rfl, eq_of_beq hpend⟩

/-- C9 witness: with one pending and one paid request, exactly the pending
id is submitted; with only paid requests, nothing is submitted. -/
theorem bulkMarkAsPaid_submits_exactly_pending_witness :
    bulkMarkAsPaid
        [{ id := 7, amount := 143, status := "paid" },
         { id := 8, amount := 143, status := "pending" }] = some [8] ∧
    bulkMarkAsPaid [{ id := 7, amount := 143, status := "paid" }] = none := by
  constructor
  · have h := (bulkMarkAsPaid_submits_exactly_pending
      [{ id := 7, amount := 143, status := "paid" },
       { id := 8, amount := 143, status := "pending" }]).2 [8]
    rfl
  · exact (bulkMarkAsPaid_submits_exactly_pending
      [{ id := 7, amount := 143, status := "paid" }]).1.mpr
      (by intro pr hpr; fin_cases hpr; simp)

/-! ## Toggling a time-slot selection
(`handleTimeSlotToggle` in `Join.tsx` and `Groups.tsx`) -/

/-- `handleTimeSlotToggle`: if the id is in the current selection, remove it
(`prev.filter(id => id !== timeSlotId)` removes every occurrence),
otherwise append it (`[...prev, timeSlotId]`). -/
def handleTimeSlotToggle (selected : List ℤ) (timeSlotId : ℤ) : List ℤ :=
  if selected.contains timeSlotId then
    selected.filter fun id => id != timeSlotId
  else
    selected ++ [timeSlotId]

/-- C10 counterexample: toggling twice is not the identity on lists — on
`[1, 2]` toggling 1 twice gives `[2, 1]`, and on the duplicated list
`[1, 1]` it gives `[1]`, which is not even a permutation of the original. -/
theorem toggle_twice_not_identity :
    handleTimeSlotToggle (handleTimeSlotToggle [1, 2] 1) 1 ≠ [1, 2] ∧
    ¬ List.Perm (handleTimeSlotToggle (handleTimeSlotToggle [1, 1] 1) 1) [1, 1] := by
  decide

/-- C10 amended.  On a duplicate-free selection list, toggling the same id
twice returns the original selection up to order (a permutation, hence the
same set of ids); one toggle removes the id when present and appends it when
absent; and a duplicate-free selection stays duplicate-free. -/
theorem toggle_involution_on_nodup (l : List ℤ) (x : ℤ) (hnd : l.Nodup) :
    List.Perm (handleTimeSlotToggle (handleTimeSlotToggle l x) x) l ∧
    (handleTimeSlotToggle l x).Nodup ∧
    (x ∈ l → handleTimeSlotToggle l x = l.filter fun id => id != x) ∧
    (x ∉ l → handleTimeSlotToggle l x = l ++ [x]) := by
  by_cases hx : x ∈ l
  · have hc : l.contains x = true := by
      simp [List.contains]
      exact hx
    have h1 : handleTimeSlotToggle l x = l.filter fun id => id != x := by
      unfold handleTimeSlotToggle
      rw [hc]
      simp
    have hxnot : x ∉ l.filter fun id => id != x := by
      intro hmem
      have hb := (List.mem_filter.mp hmem).2
      simp at hb
    have h2 : handleTimeSlotToggle (handleTimeSlotToggle l x) x =
        (l.filter fun id => id != x) ++ [x] := by
      rw [h1]
      have hc2 : (l.filter fun id => id != x).contains x = false := by
        simp [List.contains]
      unfold handleTimeSlotToggle
      rw [hc2]
      simp
    refine ⟨?_, ?_, ?_, ?_⟩
    · rw [h2]
      have hperm1 : List.Perm ((l.filter fun id => id != x) ++ [x])
          (x :: l.filter fun id => id != x) := List.perm_append_singleton x _
      refine hperm1.trans ?_
      rw [List.perm_iff_count]
      intro y
      by_cases hyx : y = x
      · rw [hyx]
        have hcount0 : (l.filter fun id => id != x).count x = 0 :=
          List.count_eq_zero.mpr hxnot
        rw [List.count_cons_self, hcount0, List.count_eq_one_of_mem hnd hx]
      · rw [List.count_cons_of_ne hyx]
        rw [List.count_filter (by simpa using hyx)]
    · rw [h1]
      exact hnd.filter _
    · intro _
      exact h1
    · intro hn
      exact absurd hx hn
  · have hc : l.contains x = false := by
      simp [List.contains]
      exact hx
    have h1 : handleTimeSlotToggle l x = l ++ [x] := by
      unfold handleTimeSlotToggle
      rw [hc]
      simp
    have hx2 : (l ++ [x]).contains x = true := by
      simp [List.contains]
    have h2 : handleTimeSlotToggle (handleTimeSlotToggle l x) x =
        (l ++ [x]).filter fun id => id != x := by
      rw [h1]
      unfold handleTimeSlotToggle
      rw [hx2]
      simp
    refine ⟨?_, ?_, ?_, ?_⟩
    · rw [h2, List.filter_append]
      have hl : l.filter (fun id => id != x) = l := by
        rw [List.filter_eq_self]
        intro a ha
        simp only [bne_iff_ne, ne_eq]
        intro heq
        subst heq
        exact hx ha
      have hs : ([x].filter fun id => id != x) = [] := by simp
      rw [hl, hs, List.append_nil]
    · rw [h1]
      rw [List.nodup_append]
      refine ⟨hnd, List.nodup_singleton x, ?_⟩
      intro a ha hmem
      simp only [List.mem_singleton] at hmem
      subst hmem
      exact hx ha
    · intro hmem
      exact absurd hmem hx
    · intro _
      exact h1

/-- C10 amended, witness: toggling 1 twice on `[1, 2]` yields a permutation
of `[1, 2]`, and one toggle keeps the list duplicate-free. -/
theorem toggle_involution_on_nodup_witness :
    List.Perm (handleTimeSlotToggle (handleTimeSlotToggle [1, 2] 1) 1) [1, 2] ∧
    (handleTimeSlotToggle [1, 2] 1).Nodup := by
  have h := toggle_involution_on_nodup [1, 2] 1 (by decide)
  exact ⟨h.1, h.2.1⟩

end GroupDump
